import Mathlib

/-!
Verification development for the agriculture real-time data app
(`src/agriculture_app_setup.js`): an Express server whose cron jobs
periodically fetch external feed data, write it wholesale into a
Firestore document per feed, and serve the stored document over a read
API. The definitions below are a shallow embedding of the market feed
pipeline (lines 43-58 and 83-117 of the source) together with the
surrounding cron and HTTP glue.
-/

namespace AgriApp

/-- JavaScript error values (what a rejected promise carries); modelled as
their message string. -/
abbrev JsErr := String

/-- Field values of the JSON payloads the app moves around: numbers,
strings, and ISO timestamp strings produced by Date.toISOString, the
latter kept abstract as the instant they encode. -/
inductive Val where
  | num (q : ℚ)
  | str (s : String)
  | tstamp (t : Nat)
deriving DecidableEq

/-- A JSON object/Firestore document: an association list of fields.
Field access follows first-match lookup, as in a JS object. -/
abbrev Doc := List (String × Val)

/-- Field lookup in a document, the meaning of data.k in JS. -/
def getField : Doc → String → Option Val
  | [], _ => none
  | (k1, v) :: rest, k => if k1 = k then some v else getField rest k

/-- Removes every binding of a key, helper for the object-spread
semantics. -/
def removeField : Doc → String → Doc
  | [], _ => []
  | (k1, v) :: rest, k =>
      if k1 = k then removeField rest k else (k1, v) :: removeField rest k

/-- Object spread followed by a field write: the meaning of
the expression `\x7b...data, k: v\x7d` in the source (line 108-111), which keeps
the fields of data except that k is bound to v. Field order is
abstracted; lookup behaviour is preserved. -/
def spreadSet (d : Doc) (k : String) (v : Val) : Doc :=
  removeField d k ++ [(k, v)]

/-- The document savePricesToDB stores (line 108-111): the fetched data
spread out, with updatedAt bound to the ISO string of the save-time
instant. -/
def savedDoc (data : Doc) (saveTime : Nat) : Doc :=
  spreadSet data "updatedAt" (Val.tstamp saveTime)

/-- The Firestore state as far as the app touches it: one document slot
per feed collection (market uses collection "market", doc "prices";
line 119 of the source says the other utils repeat the same pattern).
A slot is none when the document does not exist, in which case a read
of doc.data() yields undefined. -/
structure DB where
  weather : Option Doc
  market : Option Doc
  news : Option Doc
  alerts : Option Doc
  crops : Option Doc
deriving DecidableEq

/-- The nondeterministic environment of one refresh invocation: the
outcome of the axios.get network call (response data or a thrown
error), whether the Firestore set call fails (and with what error), and
the instant at which new Date() is evaluated inside savePricesToDB. -/
structure Env where
  fetchOutcome : Except JsErr Doc
  persistFailure : Option JsErr
  saveTime : Nat

/-- Console events the task emits: the success line
(Market prices updated, line 87) and the failure line
(Failed to update prices, line 89) with the caught error. -/
inductive LogEvent where
  | updated
  | updateFailed (e : JsErr)
deriving DecidableEq

/-- Terminal outcome of one refresh invocation. The source code only
ever completes or fails inside its catch; the skipped constructor
exists so that the skip-if-busy behaviour described in the spec is
statable about this code. -/
inductive RunResult where
  | completed
  | failed (e : JsErr)
  | skipped
deriving DecidableEq

/-- Observable outcome of one refresh invocation: resulting Firestore
state, console log, terminal result, and how many times the network
fetch and the Firestore set were invoked during the run. -/
structure RunOut where
  db : DB
  logs : List LogEvent
  result : RunResult
  fetchCalls : Nat
  putCalls : Nat
deriving DecidableEq

/-- getPricesFromAPI (lines 101-105): performs the axios.get call and
returns response.data, propagating a network/HTTP error as a thrown
exception. No inspection or validation of the data happens here. -/
def getPricesFromAPI (axiosOutcome : Except JsErr Doc) : Except JsErr Doc :=
  axiosOutcome

/-- savePricesToDB (lines 107-112): writes
`\x7b...data, updatedAt: new Date().toISOString()\x7d` into the market/prices
document with a Firestore set call, which replaces the whole document.
A failing set leaves the document unwritten and propagates the error. -/
def savePricesToDB (persistFailure : Option JsErr) (data : Doc)
    (saveTime : Nat) (db : DB) : Except JsErr DB :=
  match persistFailure with
  | some e => Except.error e
  | none => Except.ok { db with market := some (savedDoc data saveTime) }

/-- Outcome of the try block of updateMarketPrices before the catch is
applied: either the new state or the first thrown error, together with
the fetch/put call counts accumulated so far. -/
structure TryOut where
  outcome : Except JsErr DB
  fetchCalls : Nat
  putCalls : Nat

/-- The try block of updateMarketPrices (lines 85-86): fetch the prices,
then save them. A fetch error aborts before the save; a save error
aborts after both calls. -/
def updateMarketTry (env : Env) (db : DB) : TryOut :=
  match getPricesFromAPI env.fetchOutcome with
  | Except.error e => ⟨Except.error e, 1, 0⟩
  | Except.ok prices =>
      match savePricesToDB env.persistFailure prices env.saveTime db with
      | Except.error e => ⟨Except.error e, 1, 1⟩
      | Except.ok db2 => ⟨Except.ok db2, 1, 1⟩

/-- updateMarketPrices (lines 83-91): runs the try block; on success
logs the updated line, and any thrown error is caught and logged by the
catch, so the async function itself always resolves. -/
def updateMarketPrices (env : Env) (db : DB) : RunOut :=
  match updateMarketTry env db with
  | ⟨Except.ok db2, f, p⟩ => ⟨db2, [LogEvent.updated], RunResult.completed, f, p⟩
  | ⟨Except.error e, f, p⟩ => ⟨db, [LogEvent.updateFailed e], RunResult.failed e, f, p⟩

/-- Modelled from the spec: the weather RefreshJob body
(server/tasks/updateWeather.js) is not in the provided source; only its
require (line 36) and cron registration (line 43) appear, and the source
note at line 119 says the remaining feeds repeat the market pattern. Per
the spec, each feed has an identical independent RefreshJob; this one
mirrors updateMarketPrices on the weather slot. -/
def updateWeather (env : Env) (db : DB) : RunOut :=
  match getPricesFromAPI env.fetchOutcome with
  | Except.error e => ⟨db, [LogEvent.updateFailed e], RunResult.failed e, 1, 0⟩
  | Except.ok data =>
      match env.persistFailure with
      | some e => ⟨db, [LogEvent.updateFailed e], RunResult.failed e, 1, 1⟩
      | none =>
          ⟨{ db with weather := some (savedDoc data env.saveTime) },
            [LogEvent.updated], RunResult.completed, 1, 1⟩

/-- A cron tick for the market job (line 44). The registration
`cron.schedule("0 9,15 * * *", updateMarketPrices)` passes no
overlap-prevention option and the task reads no in-flight flag, so the
tick invokes the very same function application whether or not a prior
run is still pending. The busy argument records whether a prior run for
this feed is in flight; the invoked code never consults it. -/
def tickInvoke (busy : Bool) (env : Env) (db : DB) : RunOut :=
  updateMarketPrices env db

/-- getCachedPrices (lines 114-117): reads the market/prices document
and returns doc.data(), which is undefined (none) when the document
does not exist. A failing Firestore read propagates as a thrown
error. -/
def getCachedPrices (readFailure : Option JsErr) (db : DB) :
    Except JsErr (Option Doc) :=
  match readFailure with
  | some e => Except.error e
  | none => Except.ok db.market

/-- What the GET /api/market request produces: a JSON response with the
value handed to res.json (possibly undefined), or an unhandled promise
rejection when the awaited read throws, since the async handler has no
catch and Express 4 does not intercept async rejections. -/
inductive HttpOutcome where
  | jsonResponse (v : Option Doc)
  | unhandledRejection (e : JsErr)
deriving DecidableEq

/-- The GET /api/market handler (lines 55-58): awaits getCachedPrices
and passes the result to res.json; nothing catches a rejection. -/
def marketHandler (readFailure : Option JsErr) (db : DB) : HttpOutcome :=
  match getCachedPrices readFailure db with
  | Except.ok d => HttpOutcome.jsonResponse d
  | Except.error e => HttpOutcome.unhandledRejection e

/-- The updatedAt timestamp currently stored for the market feed, the
quantity the monotonicity claim is about. -/
def storedUpdatedAt (db : DB) : Option Val :=
  db.market.bind (fun d => getField d "updatedAt")

/-- An empty Firestore state, the cold-start situation. -/
def dbEmpty : DB := ⟨none, none, none, none, none⟩

/-- The rational 32.5 (= 65/2) from the end-to-end example, given in
reduced constructor form so that equality on it kernel-reduces. -/
def ricePrice : ℚ := ⟨65, 2, by decide, by decide⟩

theorem ricePrice_eq : ricePrice = 32.5 := by
  rw [ricePrice, Rat.mk'_eq_divInt, Rat.divInt_eq_div]
  norm_num

theorem getField_removeField (d : Doc) (k k1 : String) :
    getField (removeField d k) k1 = if k1 = k then none else getField d k1 := by
  induction d with
  | nil => simp [removeField, getField]
  | cons p rest ih =>
    obtain ⟨a, b⟩ := p
    by_cases hak : a = k
    · subst hak
      simp only [removeField, eq_self_iff_true, if_true]
      rw [ih]
      simp only [getField]
      by_cases h1 : k1 = a
      · simp [h1]
      · simp [h1, Ne.symm h1]
    · simp only [removeField, if_neg hak, getField, ih]
      by_cases h1 : a = k1 <;> by_cases h2 : k1 = k <;> simp_all

theorem getField_append (xs ys : Doc) (k : String) :
    getField (xs ++ ys) k = Option.or (getField xs k) (getField ys k) := by
  induction xs with
  | nil => simp [getField]
  | cons p rest ih =>
    obtain ⟨a, b⟩ := p
    by_cases h : a = k <;> simp [getField, h, ih]

theorem getField_spreadSet (d : Doc) (k k1 : String) (v : Val) :
    getField (spreadSet d k v) k1 = if k1 = k then some v else getField d k1 := by
  unfold spreadSet
  rw [getField_append, getField_removeField]
  by_cases h : k1 = k
  · subst h; simp [getField]
  · cases hg : getField d k1 <;> simp [h, getField, Ne.symm h, hg]

/-- C1, counterexample. A publish is not guarded by any timestamp
comparison: starting from a store whose market snapshot carries
updatedAt instant 10, a refresh whose save instant is the earlier
instant 5 still replaces the stored snapshot, and the stored timestamp
decreases from 10 to 5 — refuting both the replace-iff-newer rule and
the monotonicity of the stored timestamp. -/
theorem savePrices_overwrites_newer_with_older :
    storedUpdatedAt ⟨none, some (savedDoc [("rice", Val.num 30)] 10), none, none, none⟩
      = some (Val.tstamp 10) ∧
    storedUpdatedAt (updateMarketPrices ⟨Except.ok [("rice", Val.num 31)], none, 5⟩
      ⟨none, some (savedDoc [("rice", Val.num 30)] 10), none, none, none⟩).db
      = some (Val.tstamp 5) ∧
    (updateMarketPrices ⟨Except.ok [("rice", Val.num 31)], none, 5⟩
      ⟨none, some (savedDoc [("rice", Val.num 30)] 10), none, none, none⟩).db.market
      ≠ some (savedDoc [("rice", Val.num 30)] 10) := by
  decide

/-- C1, amended. A successful publish replaces the stored market
snapshot unconditionally, with no comparison against the currently
stored document, and afterwards the stored updatedAt equals the save
instant of that publish (so the stored timestamp follows save order,
not any fetch order, and can decrease). -/
theorem savePrices_unconditional_replace (data : Doc) (t : Nat) (db : DB) :
    savePricesToDB none data t db
      = Except.ok { db with market := some (savedDoc data t) } ∧
    storedUpdatedAt { db with market := some (savedDoc data t) }
      = some (Val.tstamp t) := by
  refine ⟨rfl, ?_⟩
  simp [storedUpdatedAt, savedDoc, getField_spreadSet]

/-- C2, counterexample. A tick that fires while a previous run for the
market feed is still in flight (busy = true) does not return Skipped
and does not avoid the fetch: the invocation performs its network call
(fetchCalls = 1) and runs to completion, because neither the cron
registration nor the task consults any in-flight state. -/
theorem tick_while_busy_still_fetches :
    (tickInvoke true ⟨Except.ok [("rice", Val.num 30)], none, 1⟩ dbEmpty).result
      = RunResult.completed ∧
    (tickInvoke true ⟨Except.ok [("rice", Val.num 30)], none, 1⟩ dbEmpty).result
      ≠ RunResult.skipped ∧
    (tickInvoke true ⟨Except.ok [("rice", Val.num 30)], none, 1⟩ dbEmpty).fetchCalls
      = 1 := by
  decide

/-- C2, amended. There is no mutual exclusion for the market refresh:
a tick behaves identically whether or not a prior run is in flight,
every invocation performs exactly one fetch call, and no invocation
ever yields a Skipped result — so overlapping concurrent fetches of the
same feed are possible. -/
theorem tick_ignores_in_flight (busy : Bool) (env : Env) (db : DB) :
    tickInvoke busy env db = tickInvoke false env db ∧
    (tickInvoke busy env db).fetchCalls = 1 ∧
    (tickInvoke busy env db).result ≠ RunResult.skipped := by
  refine ⟨rfl, ?_, ?_⟩ <;>
    obtain ⟨fo, pf, t⟩ := env <;>
    cases fo <;> cases pf <;>
    simp [tickInvoke, updateMarketPrices, updateMarketTry, getPricesFromAPI,
      savePricesToDB]

/-- C3, confirmed. When the fetch throws, the refresh cycle logs the
error as its only event, ends in a failure result, never attempts the
persistence write, and leaves the whole store unchanged — so a
subsequent read of GET /api/market still serves the previously stored
snapshot. -/
theorem fetch_failure_leaves_store_unchanged (e : JsErr) (pf : Option JsErr)
    (t : Nat) (db : DB) :
    updateMarketPrices ⟨Except.error e, pf, t⟩ db
      = ⟨db, [LogEvent.updateFailed e], RunResult.failed e, 1, 0⟩ ∧
    marketHandler none (updateMarketPrices ⟨Except.error e, pf, t⟩ db).db
      = HttpOutcome.jsonResponse db.market := by
  exact ⟨rfl, rfl⟩

/-- C4, counterexample. On a cold start with the stored document absent
and the read succeeding, getCachedPrices resolves to the undefined
value (none) and the handler passes that undefined value to res.json —
there is no explicit Unavailable status, refuting the never
null/undefined claim. -/
theorem getCachedPrices_cold_start_undefined :
    getCachedPrices none dbEmpty = Except.ok none ∧
    marketHandler none dbEmpty = HttpOutcome.jsonResponse none := by
  exact ⟨rfl, rfl⟩

/-- C4, amended. Every successful read goes straight through the
persistence gateway: getCachedPrices returns exactly the stored market
document, namely the persisted value when one is present and the
undefined value (none, not an Unavailable status) when the document is
absent. -/
theorem getCachedPrices_reads_persistence (db : DB) (d : Doc) :
    getCachedPrices none db = Except.ok db.market ∧
    getCachedPrices none { db with market := some d } = Except.ok (some d) ∧
    getCachedPrices none { db with market := none } = Except.ok none := by
  exact ⟨rfl, rfl, rfl⟩

/-- C5, counterexample. When the fetch succeeds but the persistence
write throws, nothing is published anywhere: the store still holds the
old document, a subsequent read serves the old document rather than the
newly fetched one, and no store slot contains the new snapshot —
refuting the claim that the new snapshot is still published for
subsequent reads. -/
theorem persist_failure_not_published :
    (updateMarketPrices ⟨Except.ok [("rice", Val.num 99)], some "disk full", 7⟩
      ⟨none, some [("rice", Val.num 30)], none, none, none⟩).db
      = ⟨none, some [("rice", Val.num 30)], none, none, none⟩ ∧
    marketHandler none (updateMarketPrices
      ⟨Except.ok [("rice", Val.num 99)], some "disk full", 7⟩
      ⟨none, some [("rice", Val.num 30)], none, none, none⟩).db
      = HttpOutcome.jsonResponse (some [("rice", Val.num 30)]) ∧
    (updateMarketPrices ⟨Except.ok [("rice", Val.num 99)], some "disk full", 7⟩
      ⟨none, some [("rice", Val.num 30)], none, none, none⟩).db.market
      ≠ some (savedDoc [("rice", Val.num 99)] 7) := by
  decide

/-- C5, amended. When the fetch succeeds and the persistence write
fails, the failure is caught and logged and the cycle ends as a
failure, but nothing is published: the store is left unchanged and a
subsequent read still serves the previous value, not the new fetch. -/
theorem persist_failure_logged_nothing_published (e : JsErr) (data : Doc)
    (t : Nat) (db : DB) :
    updateMarketPrices ⟨Except.ok data, some e, t⟩ db
      = ⟨db, [LogEvent.updateFailed e], RunResult.failed e, 1, 1⟩ ∧
    marketHandler none (updateMarketPrices ⟨Except.ok data, some e, t⟩ db).db
      = HttpOutcome.jsonResponse db.market := by
  exact ⟨rfl, rfl⟩

/-- C6, counterexample. A fetched payload containing no commodity price
at all (the empty object) is not rejected: the cycle persists it,
performs the persistence call, and completes — the store changes from
empty to holding a document with only an updatedAt field, refuting the
claim that an invalid payload behaves like a fetch failure with nothing
persisted or published. -/
theorem empty_payload_persisted :
    (updateMarketPrices ⟨Except.ok [], none, 3⟩ dbEmpty).db.market
      = some [("updatedAt", Val.tstamp 3)] ∧
    (updateMarketPrices ⟨Except.ok [], none, 3⟩ dbEmpty).db ≠ dbEmpty ∧
    (updateMarketPrices ⟨Except.ok [], none, 3⟩ dbEmpty).putCalls = 1 ∧
    (updateMarketPrices ⟨Except.ok [], none, 3⟩ dbEmpty).result
      = RunResult.completed := by
  decide

/-- C6, amended. No validation step exists: every successfully fetched
payload, whatever its shape (including one with no commodity price), is
passed to the persistence write and stored, and the cycle completes
successfully. -/
theorem no_validation_any_payload_persisted (data : Doc) (t : Nat) (db : DB) :
    (updateMarketPrices ⟨Except.ok data, none, t⟩ db).db.market
      = some (savedDoc data t) ∧
    (updateMarketPrices ⟨Except.ok data, none, t⟩ db).putCalls = 1 ∧
    (updateMarketPrices ⟨Except.ok data, none, t⟩ db).result
      = RunResult.completed := by
  exact ⟨rfl, rfl, rfl⟩

/-- C7, counterexample. After a successful refresh whose fetch returned
the single field rice = 32.5 (with save instant 7), the stored document
is the payload plus an updatedAt field: it is not equal to the bare
payload, and it carries no status field at all, so no Fresh status is
stored or served — refuting the snapshot-shape part of the claim. -/
theorem stored_doc_not_bare_payload :
    (updateMarketPrices ⟨Except.ok [("rice", Val.num ricePrice)], none, 7⟩
      dbEmpty).db.market
      = some [("rice", Val.num ricePrice), ("updatedAt", Val.tstamp 7)] ∧
    (updateMarketPrices ⟨Except.ok [("rice", Val.num ricePrice)], none, 7⟩
      dbEmpty).db.market
      ≠ some [("rice", Val.num ricePrice)] ∧
    getField [("rice", Val.num ricePrice), ("updatedAt", Val.tstamp 7)] "status"
      = none := by
  decide

/-- C7, amended. A successful refresh whose fetch returns rice = 32.5
calls the persistence write exactly once and completes; the stored
document is the fetched payload spread together with updatedAt bound to
the save instant, so its rice field equals 32.5, it has no status
field, and a subsequent read serves exactly that stored document. -/
theorem success_cycle_stores_payload_plus_updatedAt (t : Nat) (db : DB) :
    (updateMarketPrices ⟨Except.ok [("rice", Val.num ricePrice)], none, t⟩
      db).putCalls = 1 ∧
    (updateMarketPrices ⟨Except.ok [("rice", Val.num ricePrice)], none, t⟩
      db).db.market = some (savedDoc [("rice", Val.num ricePrice)] t) ∧
    getField (savedDoc [("rice", Val.num ricePrice)] t) "rice"
      = some (Val.num ricePrice) ∧
    getField (savedDoc [("rice", Val.num ricePrice)] t) "status" = none ∧
    marketHandler none (updateMarketPrices
      ⟨Except.ok [("rice", Val.num ricePrice)], none, t⟩ db).db
      = HttpOutcome.jsonResponse (some (savedDoc [("rice", Val.num ricePrice)] t)) := by
  refine ⟨rfl, rfl, ?_, ?_, rfl⟩ <;>
    simp [getField_spreadSet, savedDoc, getField]

/-- C8, confirmed. Every refresh invocation of the market job, whatever
the fetch and persistence outcomes, terminates in one of exactly two
logged shapes — completed with the success log, or failed with the
caught error as the only log and the store unchanged — so no error
escapes the job; moreover the run never touches any other feed slot,
and a subsequent successful weather refresh still succeeds and stores
its snapshot regardless of how the market run went. -/
theorem refresh_errors_contained_and_isolated (env : Env) (db : DB)
    (dataW : Doc) (tW : Nat) :
    (((updateMarketPrices env db).result = RunResult.completed ∧
        (updateMarketPrices env db).logs = [LogEvent.updated]) ∨
      (∃ e, (updateMarketPrices env db).result = RunResult.failed e ∧
        (updateMarketPrices env db).logs = [LogEvent.updateFailed e] ∧
        (updateMarketPrices env db).db = db)) ∧
    (updateMarketPrices env db).db.weather = db.weather ∧
    (updateMarketPrices env db).db.news = db.news ∧
    (updateMarketPrices env db).db.alerts = db.alerts ∧
    (updateMarketPrices env db).db.crops = db.crops ∧
    (updateWeather ⟨Except.ok dataW, none, tW⟩ (updateMarketPrices env db).db).result
      = RunResult.completed ∧
    (updateWeather ⟨Except.ok dataW, none, tW⟩ (updateMarketPrices env db).db).db.weather
      = some (savedDoc dataW tW) := by
  obtain ⟨fo, pf, t⟩ := env
  cases fo <;> cases pf <;>
    simp [updateMarketPrices, updateMarketTry, getPricesFromAPI, savePricesToDB,
      updateWeather]

/-- C9, confirmed. A successful persistence write replaces the market
document wholesale: the new stored document is built from the fetched
payload alone (the same for every prior store state, so no old field
survives), and each of its fields equals the corresponding payload
field except updatedAt, which is bound to the save instant — thereby
overwriting any updatedAt field the payload itself carried. -/
theorem persisted_doc_wholesale_replace (prev : DB) (data : Doc) (t : Nat)
    (k : String) :
    savePricesToDB none data t prev
      = Except.ok { prev with market := some (savedDoc data t) } ∧
    getField (savedDoc data t) k
      = (if k = "updatedAt" then some (Val.tstamp t) else getField data k) := by
  exact ⟨rfl, getField_spreadSet data "updatedAt" k (Val.tstamp t)⟩

/-- C10, confirmed. When the persistence read inside getCachedPrices
throws, the GET /api/market handler produces no JSON response of any
kind: the rejection propagates out of the handler unconverted, as an
unhandled rejection carrying the original error. -/
theorem market_read_failure_unhandled (e : JsErr) (db : DB) :
    marketHandler (some e) db = HttpOutcome.unhandledRejection e ∧
    ∀ v, marketHandler (some e) db ≠ HttpOutcome.jsonResponse v := by
  refine ⟨rfl, ?_⟩
  intro v h
  exact HttpOutcome.noConfusion h

end AgriApp
